import Mathlib

/-!
Shallow embedding of the spatial-index core of the dune-evalview repository.

The embedding translates the constructor and the point-location routine of
the class tree.Root (src/dune/tree/root.hpp), the stats finalization of
tree.Root.fillTreeStats, the copy constructor of tree.Root, and the
Trajectory buffer of src/dune/test.cpp.  Scalars are embedded as the exact
rationals; coordinates as lists of scalars.  Parts of the repository that
are referenced but whose sources are not available (the Node base class,
the bounding-box helper, the norm helper of math.hpp) are modelled from the
specification and marked as such in their doc comments.
-/

namespace EvalView

/-- Coordinate: a fixed-length tuple of scalars, embedded as a list of
rationals (the scalar type Real of the C++ template is embedded exactly). -/
abbrev Coord : Type := List ℚ

/-- Modelled from the spec: the helper math.norm2 of math/math.hpp is not
among the sources; the spec fixes the vertex identity test to the Euclidean
distance.  We work with the squared Euclidean distance, and every comparison
of the distance with a nonnegative tolerance t is expressed as a comparison
of dist2 with t * t, which is equivalent. -/
def dist2 (a b : Coord) : ℚ :=
  (List.zipWith (fun x y => (x - y) * (x - y)) a b).sum

/-- Vertex of the tree, as built by the tree.Root constructor: the member
global holds the stored coordinate and entity_seed the list of references
to incident elements.  An element reference is embedded as the position of
the element in the entities container (the C++ code stores the address of
entities.back(); the address model used for the reference-validity claim is
separate, see EVec below). -/
structure Vertex where
  global : Coord
  entity_seed : List Nat
deriving DecidableEq, Repr

/-- Default vertex used to embed an out-of-bounds vertex(0) access. -/
def defVertex : Vertex := { global := [], entity_seed := [] }

/-- Modelled from the spec: math/boundingbox.hpp is not among the sources.
Section 4.1 of the spec specifies that append extends the per-axis min and
max to include the point, that contains is the inclusive-bounds predicate,
and that before the first append the box is a sentinel extent (min plus
infinity, max minus infinity on every axis); the sentinel state is embedded
as none. -/
abbrev BBox : Type := Option (Coord × Coord)

/-- Append a point to a bounding box: the first point initializes both
bounds, later points extend min and max per axis. -/
def BBox.append (b : BBox) (x : Coord) : BBox :=
  match b with
  | none => some (x, x)
  | some (lo, hi) => some (List.zipWith min lo x, List.zipWith max hi x)

/-- Inclusive containment test of a bounding box; the sentinel box (min plus
infinity, max minus infinity) contains nothing. -/
def BBox.contains (b : BBox) (x : Coord) : Bool :=
  match b with
  | none => false
  | some (lo, hi) =>
      (lo.length == x.length) && (hi.length == x.length) &&
      (List.zipWith (fun l xi => decide (l ≤ xi)) lo x).all id &&
      (List.zipWith (fun xi h => decide (xi ≤ h)) x hi).all id

/-- Replace the element at a position of a list, identity elsewhere. -/
def listModify (f : Vertex → Vertex) : Nat → List Vertex → List Vertex
  | _, [] => []
  | 0, v :: vs => f v :: vs
  | n + 1, v :: vs => v :: listModify f n vs

/-- Scan of the vertex container in the tree.Root constructor, started at
list position i: the C++ loop checks every already registered vertex
against the incoming coordinate and overwrites its candidate pointer on
every hit without breaking, so the last vertex in container order whose
stored coordinate is within tolerance wins.  The tolerance argument tol
embeds the constant 10 times the machine epsilon of the scalar type. -/
def findMatchFrom (tol : ℚ) (gl : Coord) : List Vertex → Nat → Option Nat
  | [], _ => none
  | v :: vs, i =>
    match findMatchFrom tol gl vs (i + 1) with
    | some j => some j
    | none => if dist2 v.global gl < tol * tol then some i else none

/-- Position of the vertex the scan resolves to, if any. -/
def findMatch (tol : ℚ) (vs : List Vertex) (gl : Coord) : Option Nat :=
  findMatchFrom tol gl vs 0

/-- State owned by the tree.Root constructor while registering corners: the
vertex container and the domain bounding box. -/
structure RegState where
  vertex : List Vertex
  bounding_box : BBox
deriving DecidableEq, Repr

/-- State of tree.Root before any element is registered. -/
def initRegState : RegState := { vertex := [], bounding_box := none }

/-- Log entry of one corner registration: the raw coordinate, the position
of the vertex the corner resolved to, and whether a fresh vertex was
created for it. -/
structure CornerLog where
  coord : Coord
  vidx : Nat
  fresh : Bool
deriving DecidableEq, Repr

/-- One iteration of the corner loop of the tree.Root constructor
(src/dune/tree/root.hpp lines 100 to 119), for corner coordinate gl of the
element at position elem of the entities container.  On a match the code
overwrites the stored global coordinate with gl and appends the element
reference; on no match it creates a fresh vertex, appends gl to the domain
bounding box, sets the global coordinate to gl and seeds the incidence list.
The returned log records which vertex the corner resolved to. -/
def registerCornerL (tol : ℚ) (elem : Nat) (s : RegState) (gl : Coord) :
    RegState × CornerLog :=
  match findMatch tol s.vertex gl with
  | some i =>
      let upd : Vertex → Vertex := fun v =>
        { global := gl, entity_seed := v.entity_seed ++ [elem] }
      ({ s with vertex := listModify upd i s.vertex },
       { coord := gl, vidx := i, fresh := false })
  | none =>
      ({ vertex := s.vertex ++ [{ global := gl, entity_seed := [elem] }],
         bounding_box := s.bounding_box.append gl },
       { coord := gl, vidx := s.vertex.length, fresh := true })

/-- Corner registration, state part only. -/
def registerCorner (tol : ℚ) (elem : Nat) (s : RegState) (gl : Coord) : RegState :=
  (registerCornerL tol elem s gl).1

/-- Fold step over one corner, accumulating the log of the run. -/
def stepCorner (tol : ℚ) (elem : Nat) (a : RegState × List CornerLog) (gl : Coord) :
    RegState × List CornerLog :=
  ((registerCornerL tol elem a.1 gl).1, a.2 ++ [(registerCornerL tol elem a.1 gl).2])

/-- Registration of all corners of the element at position elem. -/
def runElement (tol : ℚ) (elem : Nat) (a : RegState × List CornerLog)
    (corners : List Coord) : RegState × List CornerLog :=
  corners.foldl (stepCorner tol elem) a

/-- A mesh is embedded as the list of its elements, each given by its list
of corner coordinates, in enumeration order. -/
abbrev Mesh : Type := List (List Coord)

/-- Fold step over one enumerated element. -/
def stepElement (tol : ℚ) (a : RegState × List CornerLog) (p : Nat × List Coord) :
    RegState × List CornerLog :=
  runElement tol p.1 a p.2

/-- Full registration pass of the tree.Root constructor over a mesh,
together with the log of every corner registration in order. -/
def runMesh (tol : ℚ) (mesh : Mesh) : RegState × List CornerLog :=
  mesh.enum.foldl (stepElement tol) (initRegState, [])

/-- Registration pass, state part only: vertex store and bounding box of
the freshly built tree.Root. -/
def buildRoot (tol : ℚ) (mesh : Mesh) : RegState :=
  (runMesh tol mesh).1

/-- Coordinates of the corners that created a fresh vertex, in registration
order: exactly the coordinates the constructor passed to the bounding-box
append call. -/
def freshCoords (logs : List CornerLog) : List Coord :=
  (logs.filter (fun l => l.fresh)).map (fun l => l.coord)

/-- Bounding box obtained by appending a list of coordinates in order to
the sentinel box. -/
def boxOf (cs : List Coord) : BBox :=
  cs.foldl BBox.append none

/-- Outcome of tree.Root.findEntity: either an entity was found, or control
reached the bare rethrow statement at the end of the function
(src/dune/tree/root.hpp line 178). -/
inductive FindOutcome where
  | found (e : Nat)
  | bareThrow
deriving DecidableEq, Repr

/-- Loop of findEntity over a list of entity references: the first entity
whose inclusive point-in-element test succeeds is returned; if none does,
control falls through to the bare rethrow.  The collaborator geometry test
(geo.local followed by checkInside on the reference element) is abstracted
as the predicate inside. -/
def firstInside (inside : Nat → Coord → Bool) (x : Coord) : List Nat → FindOutcome
  | [] => .bareThrow
  | e :: es => if inside e x then .found e else firstInside inside x es

/-- Body of tree.Root.findEntity after findNode has returned the node for
the query point (findNode lives in the Node base class, which is not among
the sources; the argument leafVertices stands for the vertex list of that
node).  The source iterates only the incidence list of vertex(0), the first
vertex of the node; an empty node would make vertex(0) an out-of-bounds
access and is embedded by the default vertex with an empty incidence
list. -/
def findEntity (inside : Nat → Coord → Bool) (leafVertices : List Vertex)
    (x : Coord) : FindOutcome :=
  firstInside inside x (leafVertices.headD defVertex).entity_seed

/-- Semantics of a bare rethrow statement in ISO C++: if an exception is
currently being handled it is rethrown, otherwise std terminate is called
and the program dies. -/
inductive ThrowBehavior where
  | rethrowCurrent
  | terminateProgram
deriving DecidableEq, Repr

/-- Behavior of the bare rethrow depending on whether the call site is
currently handling an exception. -/
def bareThrowBehavior (handlingActive : Bool) : ThrowBehavior :=
  if handlingActive then .rethrowCurrent else .terminateProgram

/-- Outcome of one call of findEntity as observed by the program. -/
inductive CallOutcome where
  | returned (e : Nat)
  | rethrown
  | crashed
deriving DecidableEq, Repr

/-- Call of findEntity combined with the ISO semantics of the bare rethrow:
a normal query call site is not inside a catch handler, which corresponds
to handlingActive set to false. -/
def findEntityCall (inside : Nat → Coord → Bool) (leafVertices : List Vertex)
    (x : Coord) (handlingActive : Bool) : CallOutcome :=
  match findEntity inside leafVertices x with
  | .found e => .returned e
  | .bareThrow =>
    match bareThrowBehavior handlingActive with
    | .rethrowCurrent => .rethrown
    | .terminateProgram => .crashed

/-- Deduplication keeping the first occurrence of every entry. -/
def dedupKeepFirst (seen : List Nat) : List Nat → List Nat
  | [] => []
  | e :: es =>
    if seen.contains e then dedupKeepFirst seen es
    else e :: dedupKeepFirst (e :: seen) es

/-- Modelled from the spec, for comparison with the source: the candidate
order the spec sentence describes, namely the incidence list of the first
vertex of the leaf, then the incidence lists of the subsequent vertices,
deduplicating entities already tested. -/
def specCandidates (leafVertices : List Vertex) : List Nat :=
  dedupKeepFirst [] (leafVertices.map Vertex.entity_seed).flatten

/-- Modelled from the spec, for comparison with the source: findEntity as
the spec sentence describes it, testing the candidates of every vertex of
the leaf in the stated order. -/
def specFindEntity (inside : Nat → Coord → Bool) (leafVertices : List Vertex)
    (x : Coord) : FindOutcome :=
  firstInside inside x (specCandidates leafVertices)

/-- Value of a C++ floating-point expression: some q is a finite value,
none is a non-finite IEEE value (a NaN or an infinity). -/
abbrev FpVal : Type := Option ℚ

/-- Models IEEE-754 division of a finite accumulated sum by a count cast to
the scalar type: a zero divisor yields NaN (for a zero dividend) or an
infinity, in both cases a non-finite value and in particular never the
finite value 0; the division never traps. -/
def fpDivByCount (q : ℚ) (n : Nat) : FpVal :=
  if n = 0 then none else some (q / (n : ℚ))

/-- Accumulated tree statistics as they arrive at the final division step
of tree.Root.fillTreeStats.  The accumulation itself is done by the Node
base class, which is not among the sources; modelled from the spec, section
4.6: a single traversal accumulates the node count, the leaf count and the
four sums, and on an empty tree every field is zero.  The four ave fields
hold the accumulated sums before the division. -/
structure TreeStats where
  numNodes : Nat
  numLeafs : Nat
  aveLevel : ℚ
  aveLeafLevel : ℚ
  aveVertices : ℚ
  aveEntitiesPerLeaf : ℚ
deriving DecidableEq, Repr

/-- Tree statistics after tree.Root.fillTreeStats has divided the sums. -/
structure TreeStatsFinal where
  numNodes : Nat
  numLeafs : Nat
  numVertices : Nat
  aveLevel : FpVal
  aveLeafLevel : FpVal
  aveVertices : FpVal
  aveEntitiesPerLeaf : FpVal
deriving DecidableEq, Repr

/-- Final step of tree.Root.fillTreeStats (src/dune/tree/root.hpp lines 140
to 148): sets numVertices to the size of the vertex store and divides each
of the four accumulated sums by numNodes or numLeafs with no guard against
a zero count. -/
def fillTreeStats (ts : TreeStats) (vertexCount : Nat) : TreeStatsFinal :=
  { numNodes := ts.numNodes
    numLeafs := ts.numLeafs
    numVertices := vertexCount
    aveLevel := fpDivByCount ts.aveLevel ts.numNodes
    aveLeafLevel := fpDivByCount ts.aveLeafLevel ts.numLeafs
    aveVertices := fpDivByCount ts.aveVertices ts.numNodes
    aveEntitiesPerLeaf := fpDivByCount ts.aveEntitiesPerLeaf ts.numLeafs }

/-- Models the std vector entities container of tree.Root under geometric
capacity growth: the length, the capacity, and an allocation epoch that
increases whenever a push has to reallocate, which a conforming vector must
do exactly when the length has reached the capacity. -/
structure EVec where
  len : Nat
  cap : Nat
  epoch : Nat
deriving DecidableEq, Repr

/-- Push of one entity seed onto the entities vector. -/
def EVec.push (v : EVec) : EVec :=
  if v.len < v.cap then { v with len := v.len + 1 }
  else { len := v.len + 1, cap := max 1 (2 * v.cap), epoch := v.epoch + 1 }

/-- Address of one slot of the entities vector, identified by the
allocation epoch at the time the address was taken and the slot index. -/
structure SeedPtr where
  epoch : Nat
  idx : Nat
deriving DecidableEq, Repr

/-- Address of entities.back(), the value the constructor stores into each
incidence list right after pushing the seed of the current element. -/
def EVec.backPtr (v : EVec) : SeedPtr :=
  { epoch := v.epoch, idx := v.len - 1 }

/-- A stored address still points into the live allocation iff its epoch is
the current allocation epoch and its slot is within the current length. -/
def EVec.validPtr (v : EVec) (p : SeedPtr) : Bool :=
  (p.epoch == v.epoch) && decide (p.idx < v.len)

/-- State of the entities vector after the first n elements have been
pushed, starting from the empty vector with zero capacity. -/
def entitiesAfter : Nat → EVec
  | 0 => { len := 0, cap := 0, epoch := 0 }
  | n + 1 => (entitiesAfter n).push

/-- Address stored into the incidence lists while registering element k:
the address of entities.back() right after the push of seed k. -/
def storedPtr (k : Nat) : SeedPtr :=
  (entitiesAfter (k + 1)).backPtr

/-- Observable state of a tree.Root object for the copy-construction claim:
the entity-seed container, the vertex store and the domain bounding box. -/
structure RootState where
  entities : List Nat
  vertex : List Vertex
  bounding_box : BBox
deriving DecidableEq, Repr

/-- Copy constructor of tree.Root (src/dune/tree/root.hpp line 80): the
body is empty and there is no member initializer, so every member is in its
default state and nothing of the argument is read.  The default state of
the Node base members is modelled from the spec: empty vertex store and the
sentinel bounding box. -/
def rootCopyCtor (r : RootState) : RootState :=
  { entities := [], vertex := [], bounding_box := none }

/-- Space-time point of the Trajectory buffer of src/dune/test.cpp. -/
structure XT where
  x : Coord
  t : ℚ
deriving DecidableEq, Repr

/-- Trajectory buffer of src/dune/test.cpp: the mode flag adepting, the
vector buffer data and the deque buffer dq. -/
structure Trajectory where
  adepting : Bool
  data : List XT
  dq : List XT
deriving DecidableEq, Repr

/-- Single-argument Trajectory.insert overload (src/dune/test.cpp lines 338
to 340): when adepting is false the body throws, otherwise the body is
empty, leaving the object unchanged and discarding the argument; the error
value of the Except embeds the untyped bare throw. -/
def Trajectory.insert (s : Trajectory) (xt : XT) : Except Unit Trajectory :=
  if !s.adepting then .error () else .ok s

/-! Helper lemmas about the embedded containers and scans. -/

theorem listModify_length (f : Vertex → Vertex) :
    ∀ (i : Nat) (l : List Vertex), (listModify f i l).length = l.length := by
  intro i l
  induction l generalizing i with
  | nil => cases i <;> rfl
  | cons v vs ih => cases i <;> simp [listModify, ih]

theorem listModify_getElem_eq (f : Vertex → Vertex) :
    ∀ (l : List Vertex) (i : Nat), i < l.length →
      (listModify f i l)[i]? = (l[i]?).map f := by
  intro l
  induction l with
  | nil => intro i h; simp at h
  | cons v vs ih =>
    intro i h
    cases i with
    | zero => simp [listModify]
    | succ n =>
      simp only [listModify, List.getElem?_cons_succ]
      exact ih n (by simpa using h)

theorem listModify_getElem_ne (f : Vertex → Vertex) :
    ∀ (l : List Vertex) (i j : Nat), j ≠ i →
      (listModify f i l)[j]? = l[j]? := by
  intro l
  induction l with
  | nil => intro i j _; cases i <;> rfl
  | cons v vs ih =>
    intro i j hne
    cases i with
    | zero =>
      cases j with
      | zero => exact absurd rfl hne
      | succ m => simp [listModify]
    | succ n =>
      cases j with
      | zero => simp [listModify]
      | succ m =>
        simp only [listModify, List.getElem?_cons_succ]
        exact ih n m (by omega)

theorem findMatchFrom_bounds (tol : ℚ) (gl : Coord) :
    ∀ (vs : List Vertex) (i j : Nat), findMatchFrom tol gl vs i = some j →
      i ≤ j ∧ j < i + vs.length := by
  intro vs
  induction vs with
  | nil => intro i j h; simp [findMatchFrom] at h
  | cons v rest ih =>
    intro i j h
    simp only [findMatchFrom] at h
    cases hr : findMatchFrom tol gl rest (i + 1) with
    | some k =>
      rw [hr] at h
      have hk := ih (i + 1) k hr
      simp only [Option.some.injEq] at h
      subst h
      constructor <;> [omega; simpa [Nat.add_comm, Nat.add_left_comm] using hk.2]
    | none =>
      rw [hr] at h
      by_cases hd : dist2 v.global gl < tol * tol
      · rw [if_pos hd] at h
        simp only [Option.some.injEq] at h
        subst h
        simp
      · rw [if_neg hd] at h
        exact absurd h (by simp)

theorem findMatch_lt_length (tol : ℚ) (vs : List Vertex) (gl : Coord) (i : Nat)
    (h : findMatch tol vs gl = some i) : i < vs.length := by
  have := findMatchFrom_bounds tol gl vs 0 i h
  omega

theorem findMatchFrom_none_iff (tol : ℚ) (gl : Coord) :
    ∀ (vs : List Vertex) (i : Nat), findMatchFrom tol gl vs i = none ↔
      ∀ v ∈ vs, ¬ (dist2 v.global gl < tol * tol) := by
  intro vs
  induction vs with
  | nil => intro i; simp [findMatchFrom]
  | cons v rest ih =>
    intro i
    simp only [findMatchFrom]
    cases hr : findMatchFrom tol gl rest (i + 1) with
    | some k =>
      have : ¬ (∀ w ∈ rest, ¬ (dist2 w.global gl < tol * tol)) := by
        intro hall
        rw [← ih (i + 1)] at hall
        rw [hall] at hr
        exact Option.noConfusion hr
      simp only [List.mem_cons]
      constructor
      · intro h; exact absurd h (by simp)
      · intro hall
        exact absurd (fun w hw => hall w (Or.inr hw)) this
    | none =>
      have hrest := (ih (i + 1)).mp hr
      by_cases hd : dist2 v.global gl < tol * tol
      · rw [if_pos hd]
        simp only [List.mem_cons]
        constructor
        · intro h; exact absurd h (by simp)
        · intro hall; exact absurd hd (hall v (Or.inl rfl))
      · rw [if_neg hd]
        simp only [List.mem_cons, true_iff]
        intro w hw
        rcases hw with hw | hw
        · subst hw; exact hd
        · exact hrest w hw

theorem findMatch_none_iff (tol : ℚ) (vs : List Vertex) (gl : Coord) :
    findMatch tol vs gl = none ↔
      ∀ v ∈ vs, ¬ (dist2 v.global gl < tol * tol) :=
  findMatchFrom_none_iff tol gl vs 0

theorem boxOf_snoc (cs : List Coord) (c : Coord) :
    boxOf (cs ++ [c]) = (boxOf cs).append c := by
  simp [boxOf, List.foldl_append]

theorem freshCoords_snoc (logs : List CornerLog) (l : CornerLog) :
    freshCoords (logs ++ [l]) =
      freshCoords logs ++ (if l.fresh then [l.coord] else []) := by
  cases hf : l.fresh <;> simp [freshCoords, List.filter_append, hf]

theorem stepCorner_boxInv (tol : ℚ) (elem : Nat) (a : RegState × List CornerLog)
    (gl : Coord) (h : a.1.bounding_box = boxOf (freshCoords a.2)) :
    (stepCorner tol elem a gl).1.bounding_box =
      boxOf (freshCoords (stepCorner tol elem a gl).2) := by
  simp only [stepCorner, registerCornerL]
  cases hm : findMatch tol a.1.vertex gl with
  | some i => simp [freshCoords_snoc, h]
  | none => simp [freshCoords_snoc, boxOf_snoc, h]

theorem runElement_boxInv (tol : ℚ) (elem : Nat) :
    ∀ (corners : List Coord) (a : RegState × List CornerLog),
      a.1.bounding_box = boxOf (freshCoords a.2) →
      (runElement tol elem a corners).1.bounding_box =
        boxOf (freshCoords (runElement tol elem a corners).2) := by
  intro corners
  induction corners with
  | nil => intro a h; simpa [runElement] using h
  | cons c cs ih =>
    intro a h
    have h1 := stepCorner_boxInv tol elem a c h
    simpa [runElement, List.foldl_cons] using ih (stepCorner tol elem a c) h1

theorem foldElements_boxInv (tol : ℚ) :
    ∀ (l : List (Nat × List Coord)) (a : RegState × List CornerLog),
      a.1.bounding_box = boxOf (freshCoords a.2) →
      (l.foldl (stepElement tol) a).1.bounding_box =
        boxOf (freshCoords (l.foldl (stepElement tol) a).2) := by
  intro l
  induction l with
  | nil => intro a h; simpa using h
  | cons p ps ih =>
    intro a h
    have h1 : (stepElement tol a p).1.bounding_box =
        boxOf (freshCoords (stepElement tol a p).2) :=
      runElement_boxInv tol p.1 p.2 a h
    simpa [List.foldl_cons] using ih (stepElement tol a p) h1

theorem firstInside_eq_findFirst (inside : Nat → Coord → Bool) (x : Coord) :
    ∀ l : List Nat,
      firstInside inside x l =
        (match l.find? (fun e => inside e x) with
         | some e => FindOutcome.found e
         | none => FindOutcome.bareThrow) := by
  intro l
  induction l with
  | nil => rfl
  | cons e es ih =>
    cases he : inside e x with
    | true => simp [firstInside, he, List.find?_cons_of_pos]
    | false => simp [firstInside, he, List.find?_cons_of_neg, ih]

theorem firstInside_all_fail (inside : Nat → Coord → Bool) (x : Coord) :
    ∀ l : List Nat, (∀ e ∈ l, inside e x = false) →
      firstInside inside x l = FindOutcome.bareThrow := by
  intro l
  induction l with
  | nil => intro _; rfl
  | cons e es ih =>
    intro h
    have he := h e (List.mem_cons_self e es)
    simp only [firstInside, he, if_neg Bool.false_ne_true]
    exact ih (fun w hw => h w (List.mem_cons_of_mem e hw))

theorem epoch_le_push (v : EVec) : v.epoch ≤ (EVec.push v).epoch := by
  simp only [EVec.push]
  split <;> simp

theorem two_le_epoch_entitiesAfter (n : Nat) (h : 2 ≤ n) :
    2 ≤ (entitiesAfter n).epoch := by
  induction n, h using Nat.le_induction with
  | base => simp [entitiesAfter, EVec.push]
  | succ m hm ih =>
    calc 2 ≤ (entitiesAfter m).epoch := ih
    _ ≤ (entitiesAfter (m + 1)).epoch := epoch_le_push (entitiesAfter m)

/-! Theorems settling the claims. -/

/-- C9: copy-constructing tree.Root from any existing Root yields a Root
whose entity-seed list and vertex store are empty and whose bounding box is
in the default (sentinel) state; no state of the source Root is copied, as
the result does not depend on the argument at all. -/
theorem rootCopyCtor_ignores_source (r : RootState) :
    rootCopyCtor r = { entities := [], vertex := [], bounding_box := none } :=
  rfl

/-- C10: the single-argument Trajectory.insert throws exactly when the
adepting flag is false; when adepting is true it returns the object
unchanged, so both the vector buffer and the deque buffer are untouched and
the argument is never inserted. -/
theorem trajectory_insert_spec (s : Trajectory) (xt : XT) :
    Trajectory.insert s xt =
      (if s.adepting then Except.ok s else Except.error ()) := by
  cases h : s.adepting <;> simp [Trajectory.insert, h]

/-- Accumulated statistics of the empty tree: every counter and sum is
zero, per section 4.6 of the spec. -/
def emptyStats : TreeStats :=
  { numNodes := 0, numLeafs := 0, aveLevel := 0, aveLeafLevel := 0,
    aveVertices := 0, aveEntitiesPerLeaf := 0 }

/-- C6 counterexample: on the empty tree (all counters and sums zero) the
average level computed by tree.Root.fillTreeStats is the IEEE quotient of
zero by zero, a non-finite NaN value, and not the finite value 0 the claim
requires. -/
theorem fillTreeStats_empty_not_zero :
    (fillTreeStats emptyStats 0).aveLevel ≠ some 0 := by
  simp [fillTreeStats, fpDivByCount, emptyStats]

/-- C6 amended: tree.Root.fillTreeStats divides the accumulated sums by the
node and leaf counts with no zero guard; when the counts are zero every
average field is a non-finite IEEE value (NaN on the empty tree), not the
finite value 0.  The IEEE division never traps, so no faulting division
occurs. -/
theorem fillTreeStats_zero_denominators (ts : TreeStats) (vc : Nat)
    (hn : ts.numNodes = 0) (hl : ts.numLeafs = 0) :
    (fillTreeStats ts vc).aveLevel = none ∧
    (fillTreeStats ts vc).aveLeafLevel = none ∧
    (fillTreeStats ts vc).aveVertices = none ∧
    (fillTreeStats ts vc).aveEntitiesPerLeaf = none := by
  simp [fillTreeStats, fpDivByCount, hn, hl]

/-- Witness for the C6 amended theorem at the all-zero statistics record. -/
theorem fillTreeStats_zero_denominators_witness :
    (fillTreeStats emptyStats 0).aveLevel = none ∧
    (fillTreeStats emptyStats 0).aveLeafLevel = none ∧
    (fillTreeStats emptyStats 0).aveVertices = none ∧
    (fillTreeStats emptyStats 0).aveEntitiesPerLeaf = none :=
  fillTreeStats_zero_denominators emptyStats 0 rfl rfl

/-- C8 counterexample: with two elements, the address stored into the
incidence lists while registering the first element (allocation epoch 1,
slot 0) no longer points into the live allocation of the entities vector
after the second push has forced a reallocation (epoch 2): the stored
reference does not remain a valid identifier of its element. -/
theorem storedPtr_invalidated_two_elements :
    EVec.validPtr (entitiesAfter 2) (storedPtr 0) = false := by
  decide

/-- C8 amended: the references stored into the vertex incidence lists are
raw addresses of slots of the entities vector taken at insertion time; once
a later push reallocates, earlier addresses are stale.  For every mesh of
at least two elements, the address stored for the first element is invalid
when the registration pass completes. -/
theorem storedPtr_first_element_stale (n : Nat) (h : 2 ≤ n) :
    EVec.validPtr (entitiesAfter n) (storedPtr 0) = false := by
  have h2 : 2 ≤ (entitiesAfter n).epoch := two_le_epoch_entitiesAfter n h
  have hp : storedPtr 0 = { epoch := 1, idx := 0 } := rfl
  rw [hp]
  simp only [EVec.validPtr]
  have hne : ((1 : Nat) == (entitiesAfter n).epoch) = false := by
    rw [beq_eq_false_iff_ne]
    omega
  simp [hne]

/-- Witness for the C8 amended theorem at a run over two elements. -/
theorem storedPtr_first_element_stale_witness :
    EVec.validPtr (entitiesAfter 2) (storedPtr 0) = false ∧ 2 ≤ 2 :=
  ⟨storedPtr_first_element_stale 2 (by decide), by decide⟩

/-- C1 counterexample: a leaf with one vertex incident to one element whose
inclusive test fails at the query point.  The call of findEntity from code
that is not handling an exception (the situation of every query call site)
crashes the program: the bare rethrow at the end of findEntity calls std
terminate, so the failure is not surfaced as a typed PointNotFound value
distinct from OutOfDomain and the program does crash. -/
theorem findEntity_no_candidate_crashes :
    findEntityCall (fun _ _ => false)
      [{ global := [0], entity_seed := [0] }] [0] false = CallOutcome.crashed := by
  decide

/-- C1 amended: whenever no candidate element of the leaf passes the
inclusive point-in-element test, findEntity reaches the bare rethrow
statement; this signal is untyped (it carries no PointNotFound payload and
is not distinguishable from any other failure), and when the call site is
not inside exception handling the program terminates. -/
theorem findEntity_no_candidate_bare_throw (inside : Nat → Coord → Bool)
    (leafVertices : List Vertex) (x : Coord)
    (h : ∀ e ∈ (leafVertices.headD defVertex).entity_seed, inside e x = false) :
    findEntity inside leafVertices x = FindOutcome.bareThrow ∧
    findEntityCall inside leafVertices x false = CallOutcome.crashed := by
  have h1 : findEntity inside leafVertices x = FindOutcome.bareThrow :=
    firstInside_all_fail inside x _ h
  refine ⟨h1, ?_⟩
  simp [findEntityCall, h1, bareThrowBehavior]

/-- Witness for the C1 amended theorem at a concrete leaf and query. -/
theorem findEntity_no_candidate_bare_throw_witness :
    (∀ e ∈ (([{ global := [0], entity_seed := [0] }] : List Vertex).headD
        defVertex).entity_seed, (fun (_ : Nat) (_ : Coord) => false) e [0] = false) ∧
    (findEntity (fun _ _ => false) [{ global := [0], entity_seed := [0] }] [0] =
        FindOutcome.bareThrow ∧
      findEntityCall (fun _ _ => false) [{ global := [0], entity_seed := [0] }] [0] false =
        CallOutcome.crashed) :=
  ⟨by decide,
   findEntity_no_candidate_bare_throw (fun _ _ => false)
     [{ global := [0], entity_seed := [0] }] [0] (by decide)⟩

/-- C3 counterexample: a leaf with two vertices; the element passing the
test is incident only to the second vertex.  The order the claim states
(first vertex incidence list, then the lists of the subsequent vertices,
deduplicated) finds the element, but findEntity reaches the bare rethrow:
the source iterates only the incidence list of vertex(0). -/
theorem findEntity_ignores_later_vertices :
    ¬ (findEntity (fun e _ => e == 1)
        [{ global := [0], entity_seed := [0] },
         { global := [1], entity_seed := [1] }] [0] =
       specFindEntity (fun e _ => e == 1)
        [{ global := [0], entity_seed := [0] },
         { global := [1], entity_seed := [1] }] [0]) := by
  decide

/-- C3 amended: findEntity tests only the incidence list of the first
vertex of the leaf, in insertion order, and returns the first element of
that list whose inclusive test succeeds; the incidence lists of the
subsequent vertices are never consulted. -/
theorem findEntity_first_vertex_order (inside : Nat → Coord → Bool)
    (leafVertices : List Vertex) (x : Coord) :
    findEntity inside leafVertices x =
      (match (leafVertices.headD defVertex).entity_seed.find?
          (fun e => inside e x) with
       | some e => FindOutcome.found e
       | none => FindOutcome.bareThrow) :=
  firstInside_eq_findFirst inside x _

/-- C2 counterexample: two one-corner elements at distance 8, tolerance 10
(the tolerance embeds 10 times the machine epsilon; the run is invariant
under a common rescale).  The corner of the second element is merged into
the vertex created by the first (the log shows fresh = false), yet the
final vertex store is not the store the first-registered-wins rule
predicts: the stored coordinate has been replaced by the later coordinate
[8]. -/
theorem merge_last_coordinate_wins :
    ((runMesh 10 [[[0]], [[8]]]).2.map CornerLog.fresh = [true, false]) ∧
    ((buildRoot 10 [[[0]], [[8]]]).vertex =
      [{ global := [8], entity_seed := [0, 1] }]) ∧
    ((buildRoot 10 [[[0]], [[8]]]).vertex ≠
      [{ global := [0], entity_seed := [0, 1] }]) := by
  refine ⟨?_, ?_, ?_⟩ <;>
    norm_num [buildRoot, runMesh, stepElement, runElement, stepCorner,
      registerCornerL, findMatch, findMatchFrom, dist2, initRegState,
      listModify, List.enum, List.enumFrom]

/-- C2 amended: when a later coordinate within tolerance is merged into an
existing vertex, the constructor overwrites the stored coordinate of that
vertex with the later coordinate and appends the element reference: the
last-registered coordinate wins, not the first-registered one (and no
averaging happens). -/
theorem merge_overwrites_global (tol : ℚ) (e : Nat) (s : RegState) (gl : Coord)
    (i : Nat) (h : findMatch tol s.vertex gl = some i) :
    (registerCorner tol e s gl).vertex[i]? =
      (s.vertex[i]?).map
        (fun v => { global := gl, entity_seed := v.entity_seed ++ [e] }) := by
  have hi := findMatch_lt_length tol s.vertex gl i h
  simp only [registerCorner, registerCornerL, h]
  exact listModify_getElem_eq _ _ _ hi

/-- Witness for the C2 amended theorem: one stored vertex at [0], incoming
coordinate [8] within the tolerance 10. -/
theorem merge_overwrites_global_witness :
    (registerCorner 10 1
        { vertex := [{ global := [0], entity_seed := [0] }], bounding_box := none }
        [8]).vertex[0]? =
      ((({ vertex := [{ global := [0], entity_seed := [0] }], bounding_box := none } :
          RegState).vertex)[0]?).map
        (fun v => { global := [8], entity_seed := v.entity_seed ++ [1] }) :=
  merge_overwrites_global 10 1 _ [8] 0
    (by norm_num [findMatch, findMatchFrom, dist2])

/-- C4 counterexample: three one-corner elements at coordinates 0, 8 and 16
with tolerance 10.  Every corner resolves to the same single vertex (the
stored coordinate drifts from 0 to 8 to 16, and each new corner is compared
against the current stored coordinate), yet the raw coordinates [0] and
[16] are at Euclidean distance 16, not below the tolerance: resolution to
the same vertex does not imply distance below tolerance. -/
theorem same_vertex_beyond_tolerance :
    ((runMesh 10 [[[0]], [[8]], [[16]]]).2.map CornerLog.vidx = [0, 0, 0]) ∧
    ¬ (dist2 [0] [16] < 10 * 10) := by
  constructor
  · norm_num [runMesh, stepElement, runElement, stepCorner,
      registerCornerL, findMatch, findMatchFrom, dist2, initRegState,
      listModify, List.enum, List.enumFrom]
  · norm_num [dist2]

/-- C4 amended: a raw corner coordinate is merged into an existing vertex
(the vertex count stays the same) iff its Euclidean distance to the
currently stored coordinate of some existing vertex is below the tolerance;
since merges overwrite the stored coordinate, the relation between the raw
coordinates themselves is not an equivalence by distance below tolerance. -/
theorem registerCorner_merge_iff (tol : ℚ) (e : Nat) (s : RegState) (gl : Coord) :
    (registerCorner tol e s gl).vertex.length = s.vertex.length ↔
      ∃ v ∈ s.vertex, dist2 v.global gl < tol * tol := by
  cases h : findMatch tol s.vertex gl with
  | none =>
    have hno := (findMatch_none_iff tol s.vertex gl).mp h
    apply iff_of_false
    · simp only [registerCorner, registerCornerL, h, List.length_append,
        List.length_cons, List.length_nil]
      omega
    · rintro ⟨v, hv, hd⟩
      exact hno v hv hd
  | some i =>
    apply iff_of_true
    · simp [registerCorner, registerCornerL, h, listModify_length]
    · by_contra hne
      push_neg at hne
      have hnone : findMatch tol s.vertex gl = none :=
        (findMatch_none_iff tol s.vertex gl).mpr
          (fun v hv => not_lt.mpr (hne v hv))
      rw [h] at hnone
      exact Option.noConfusion hnone

/-- Witness for the C4 amended theorem: one stored vertex at [0], incoming
coordinate [8], tolerance 10. -/
theorem registerCorner_merge_iff_witness :
    (registerCorner 10 1
        { vertex := [{ global := [0], entity_seed := [0] }], bounding_box := none }
        [8]).vertex.length =
      ({ vertex := [{ global := [0], entity_seed := [0] }], bounding_box := none } :
        RegState).vertex.length ↔
      ∃ v ∈ ({ vertex := [{ global := [0], entity_seed := [0] }], bounding_box := none } :
        RegState).vertex, dist2 v.global [8] < 10 * 10 :=
  registerCorner_merge_iff 10 1 _ [8]

/-- C5 counterexample: registering the coordinate [8] within tolerance of
the vertex stored at [0] keeps the vertex count at one, but the resulting
state is not the claimed state in which the element reference was merely
appended: the stored coordinate was overwritten as well. -/
theorem merge_not_only_append :
    ((registerCorner 10 1 (registerCorner 10 0 initRegState [0]) [8]).vertex.length =
      (registerCorner 10 0 initRegState [0]).vertex.length) ∧
    (registerCorner 10 1 (registerCorner 10 0 initRegState [0]) [8] ≠
      { vertex := [{ global := [0], entity_seed := [0, 1] }],
        bounding_box := some ([0], [0]) }) := by
  constructor <;>
    norm_num [registerCorner, registerCornerL, findMatch, findMatchFrom,
      dist2, initRegState, listModify]

/-- C5 amended: registering a coordinate within tolerance of an existing
vertex never increases the vertex count and leaves the bounding box and all
other vertices unchanged; the matched vertex receives the appended element
reference and additionally has its stored coordinate overwritten by the
incoming coordinate. -/
theorem merge_appends_and_overwrites (tol : ℚ) (e : Nat) (s : RegState)
    (gl : Coord) (i j : Nat) (h : findMatch tol s.vertex gl = some i)
    (hj : j ≠ i) :
    (registerCorner tol e s gl).vertex.length = s.vertex.length ∧
    (registerCorner tol e s gl).bounding_box = s.bounding_box ∧
    (registerCorner tol e s gl).vertex[i]? =
      (s.vertex[i]?).map
        (fun v => { global := gl, entity_seed := v.entity_seed ++ [e] }) ∧
    (registerCorner tol e s gl).vertex[j]? = s.vertex[j]? := by
  have hi := findMatch_lt_length tol s.vertex gl i h
  refine ⟨?_, ?_, ?_, ?_⟩
  · simp [registerCorner, registerCornerL, h, listModify_length]
  · simp [registerCorner, registerCornerL, h]
  · simp only [registerCorner, registerCornerL, h]
    exact listModify_getElem_eq _ _ _ hi
  · simp only [registerCorner, registerCornerL, h]
    exact listModify_getElem_ne _ _ _ _ hj

/-- Witness for the C5 amended theorem: one stored vertex at [0], incoming
coordinate [8] within the tolerance 10, and the untouched position 1. -/
theorem merge_appends_and_overwrites_witness :
    (registerCorner 10 1
        { vertex := [{ global := [0], entity_seed := [0] }], bounding_box := none }
        [8]).vertex.length =
      ({ vertex := [{ global := [0], entity_seed := [0] }], bounding_box := none } :
        RegState).vertex.length ∧
    (registerCorner 10 1
        { vertex := [{ global := [0], entity_seed := [0] }], bounding_box := none }
        [8]).bounding_box =
      ({ vertex := [{ global := [0], entity_seed := [0] }], bounding_box := none } :
        RegState).bounding_box ∧
    (registerCorner 10 1
        { vertex := [{ global := [0], entity_seed := [0] }], bounding_box := none }
        [8]).vertex[0]? =
      ((({ vertex := [{ global := [0], entity_seed := [0] }], bounding_box := none } :
          RegState).vertex)[0]?).map
        (fun v => { global := [8], entity_seed := v.entity_seed ++ [1] }) ∧
    (registerCorner 10 1
        { vertex := [{ global := [0], entity_seed := [0] }], bounding_box := none }
        [8]).vertex[1]? =
      (({ vertex := [{ global := [0], entity_seed := [0] }], bounding_box := none } :
        RegState).vertex)[1]? :=
  merge_appends_and_overwrites 10 1 _ [8] 0 1
    (by norm_num [findMatch, findMatchFrom, dist2]) (by decide)

/-- C7 counterexample: two one-corner elements at distance 8 with tolerance
10.  The corner [8] of the second element is merged into the existing
vertex and is never appended to the bounding box, and the final bounding
box does not contain it: the box absorbs only the coordinates that created
a new vertex. -/
theorem bounding_box_misses_merged_corner :
    BBox.contains (buildRoot 10 [[[0]], [[8]]]).bounding_box [8] = false := by
  norm_num [buildRoot, runMesh, stepElement, runElement, stepCorner,
    registerCornerL, findMatch, findMatchFrom, dist2, initRegState,
    listModify, List.enum, List.enumFrom, BBox.contains, BBox.append]

/-- C7 amended: during construction the bounding box absorbs exactly the
corner coordinates that created a fresh vertex, in registration order;
corners merged into an existing vertex are not appended to the box. -/
theorem bounding_box_absorbs_only_fresh (tol : ℚ) (mesh : Mesh) :
    (buildRoot tol mesh).bounding_box =
      boxOf (freshCoords (runMesh tol mesh).2) := by
  have hinit : (initRegState, ([] : List CornerLog)).1.bounding_box =
      boxOf (freshCoords []) := rfl
  have := foldElements_boxInv tol mesh.enum (initRegState, []) hinit
  simpa [buildRoot, runMesh] using this

end EvalView
